import Mathlib

/-!
Shallow embedding of the training orchestrator in `trainer.py`
(class `Trainer`: `__init__`, `train`, `evaluate`, `inference`).

Loss values are modelled as rationals (`Loss := ℚ`); the initial
`best_valid_loss = float('inf')` is modelled as `⊤ : WithTop Loss`.
Python's division, which raises `ZeroDivisionError` on a zero
denominator, is modelled by `safeDiv` returning `Except Err Loss`.
The external collaborators (the Transformer forward pass, the
cross-entropy criterion, autograd, gradient clipping and the inner
Adam update) are abstracted as an environment `Env` of pure functions
over abstract types `P` (model parameters / state dict), `O` (inner
Adam optimizer state) and `G` (gradient buffers); the orchestrator's
control flow is embedded literally over that environment.
-/

namespace TransformerTrainer

/-- Scalar loss values (`loss.item()` results), modelled as rationals. -/
abbrev Loss := ℚ

/-- module training/evaluation mode, toggled by `model.train()` / `model.eval()`. -/
inductive Mode
  | train
  | eval
deriving DecidableEq, Repr

/-- errors raised by the embedded Python code paths. -/
inductive Err
  | divByZero
  | fileNotFound
  | loadUnexpectedKeys
  | keyErrorEpoch
deriving DecidableEq, Repr

/-- a batch from a torchtext-style iterator: `batch.kor` (source token ids)
and `batch.eng` (target token ids), batch-major matrices. -/
structure Batch where
  kor : List (List ℕ)
  eng : List (List ℕ)
deriving DecidableEq, Repr

/-- the model as seen by the trainer: its parameters (state dict) and mode. -/
structure ModelState (P : Type) where
  params : P
  mode : Mode
deriving DecidableEq, Repr

/-- `ScheduledAdam` wrapper state, as read and written by `trainer.py`:
the underlying Adam optimizer, `current_steps` and `init_lr`. -/
structure ScheduledAdam (O : Type) where
  optimizer : O
  current_steps : ℕ
  init_lr : ℚ
deriving DecidableEq, Repr

/-- the checkpoint record `train()` saves: a dict with keys `epoch`,
`model`, `optimizer`, `best_valid_loss`, `current_steps`, `init_lr`. -/
structure Checkpoint (P O : Type) where
  epoch : ℕ
  model : P
  optimizer : O
  best_valid_loss : WithTop Loss
  current_steps : ℕ
  init_lr : ℚ
deriving DecidableEq, Repr

/-- a value stored in a checkpoint file, as `torch.load` returns it:
either a bare model state dict, or the full record that `train()` writes. -/
inductive SavedValue (P O : Type)
  | stateDict (p : P)
  | record (c : Checkpoint P O)
deriving DecidableEq, Repr

/-- the two files the trainer touches: the configured save path
(`params.save_model`) and the fixed-name legacy file `modelTrain.pt`.
`none` means the file does not exist. The legacy file is only ever read
with the record keys, so it is modelled as holding a record. -/
structure FileSystem (P O : Type) where
  saveModel : Option (SavedValue P O)
  legacy : Option (Checkpoint P O)
deriving DecidableEq, Repr

/-- the mutable fields of the `Trainer` object that the claims are about. -/
structure TrainerState (P O : Type) where
  model : ModelState P
  epoch : ℕ
  epochVal : Option ℕ
  best_valid_loss : WithTop Loss
  optimizer : ScheduledAdam O
deriving DecidableEq, Repr

/-- configuration fields of `params` the orchestrator consumes. -/
structure Params where
  num_epoch : ℕ
  clip : ℚ
deriving DecidableEq, Repr

/-- external collaborators wired together by the orchestrator, abstracted
as pure deterministic functions. `forward p mo src tgt` is
`model(src, tgt)[0]` (a batch of per-position score rows) run with
parameters `p` in mode `mo`; `criterion` is the padding-ignoring
cross-entropy on the flattened output and target; `backward g p out tgt`
accumulates gradients of the loss into the zeroed buffer `g`;
`clipGrad g c` is `clip_grad_norm_` at threshold `c`; `adamZero` is the
zeroed gradient buffer after `zero_grad()`; `lr l n` is the scheduled
learning rate at base rate `l` and step count `n`; `adamStep o p g l`
is one underlying Adam parameter update at rate `l`. -/
structure Env (P O G : Type) where
  forward : P → Mode → List (List ℕ) → List (List ℕ) → List (List (List ℚ))
  criterion : List (List ℚ) → List ℕ → Loss
  backward : G → P → List (List ℚ) → List ℕ → G
  clipGrad : G → ℚ → G
  adamZero : G
  lr : ℚ → ℕ → ℚ
  adamStep : O → P → G → ℚ → P × O

/-- decidable equality for `Except`, so closed runs can be checked by
`decide`. -/
instance {ε α : Type _} [DecidableEq ε] [DecidableEq α] :
    DecidableEq (Except ε α)
  | Except.error a, Except.error b =>
    if h : a = b then isTrue (by rw [h])
    else isFalse (fun hc => h (Except.error.inj hc))
  | Except.error _, Except.ok _ => isFalse (fun hc => Except.noConfusion hc)
  | Except.ok _, Except.error _ => isFalse (fun hc => Except.noConfusion hc)
  | Except.ok a, Except.ok b =>
    if h : a = b then isTrue (by rw [h])
    else isFalse (fun hc => h (Except.ok.inj hc))

/-- Python division `x / n` where `n = len(iterator)`: raises
`ZeroDivisionError` when the iterator is empty. -/
def safeDiv (x : Loss) (n : ℕ) : Except Err Loss :=
  if n = 0 then .error Err.divByZero else .ok (x / (n : ℚ))

/-- Modelled from the spec: `ScheduledAdam.step` lives in `model/optim.py`,
which is not part of the visible source. Per the spec it increments the
cumulative step counter, computes the scheduled learning rate from the
base rate and the new counter, and delegates one parameter update to the
underlying Adam optimizer. -/
def ScheduledAdam.step {P O G : Type} (env : Env P O G) (sa : ScheduledAdam O)
    (p : P) (g : G) : P × ScheduledAdam O :=
  let steps := sa.current_steps + 1
  let rate := env.lr sa.init_lr steps
  let po := env.adamStep sa.optimizer p g rate
  (po.1, { sa with optimizer := po.2, current_steps := steps })

/-- `Trainer.__init__` (the state-restoring part, lines 34-55 of
`trainer.py`): start fresh with epoch 0 and `best_valid_loss = inf`;
if the save-path file exists, read the record and store its `epoch` into
`epochVal` and its `best_valid_loss` into `best_valid_loss` (a bare state
dict at that path makes the `['epoch']` subscript raise); if the legacy
file `modelTrain.pt` exists, additionally load model parameters, inner
optimizer state, `current_steps`, `init_lr` and `epoch` from it. -/
def trainerInit {P O : Type} (fs : FileSystem P O) (p0 : P) (o0 : O)
    (lr0 : ℚ) : Except Err (TrainerState P O) :=
  let s0 : TrainerState P O :=
    { model := ⟨p0, Mode.train⟩, epoch := 0, epochVal := none,
      best_valid_loss := ⊤, optimizer := ⟨o0, 0, lr0⟩ }
  match fs.saveModel with
  | some (SavedValue.stateDict _) => .error Err.keyErrorEpoch
  | some (SavedValue.record c) =>
    let s1 := { s0 with epochVal := some c.epoch,
                        best_valid_loss := c.best_valid_loss }
    .ok (match fs.legacy with
      | none => s1
      | some cl =>
        { s1 with model := { s1.model with params := cl.model },
                  optimizer := ⟨cl.optimizer, cl.current_steps, cl.init_lr⟩,
                  epoch := cl.epoch })
  | none =>
    .ok (match fs.legacy with
      | none => s0
      | some cl =>
        { s0 with model := { s0.model with params := cl.model },
                  optimizer := ⟨cl.optimizer, cl.current_steps, cl.init_lr⟩,
                  epoch := cl.epoch })

/-- epochs `train()` iterates over: `range(self.epoch, num_epoch)`. -/
def trainEpochs {P O : Type} (cfg : Params) (s : TrainerState P O) : List ℕ :=
  List.range' s.epoch (cfg.num_epoch - s.epoch)

/-- operations performed on a batch inside the training loop, in
program order (lines 72-95 of `trainer.py`). -/
inductive Event
  | zeroGrad
  | forward
  | flatten
  | lossCompute
  | backward
  | clip
  | optStep
  | accumLoss
deriving DecidableEq, Repr

/-- loss of one batch in a no-grad pass (`evaluate` / `inference` body):
forward on `(batch.kor, batch.eng[:, :-1])`, flatten the output to
(positions, vocab) and `batch.eng[:, 1:]` to (positions,), apply the
criterion. -/
def evalBatchLoss {P O G : Type} (env : Env P O G) (p : P) (mo : Mode)
    (b : Batch) : Loss :=
  let out := env.forward p mo b.kor (b.eng.map List.dropLast)
  env.criterion out.flatten ((b.eng.map (fun row => row.drop 1)).flatten)

/-- one iteration of the training batch loop (lines 70-95 of
`trainer.py`), returning the updated model/optimizer, the scalar loss
added to `epoch_loss`, and the trace of operations in program order. -/
def trainBatch {P O G : Type} (env : Env P O G) (clip : ℚ)
    (st : ModelState P × ScheduledAdam O) (b : Batch) :
    (ModelState P × ScheduledAdam O) × Loss × List Event :=
  let g0 := env.adamZero
  let tr0 : List Event := [Event.zeroGrad]
  let out := env.forward st.1.params st.1.mode b.kor (b.eng.map List.dropLast)
  let tr1 := tr0 ++ [Event.forward]
  let outFlat := out.flatten
  let targetFlat := (b.eng.map (fun row => row.drop 1)).flatten
  let tr2 := tr1 ++ [Event.flatten]
  let loss := env.criterion outFlat targetFlat
  let tr3 := tr2 ++ [Event.lossCompute]
  let g1 := env.backward g0 st.1.params outFlat targetFlat
  let tr4 := tr3 ++ [Event.backward]
  let g2 := env.clipGrad g1 clip
  let tr5 := tr4 ++ [Event.clip]
  let psa := ScheduledAdam.step env st.2 st.1.params g2
  let tr6 := tr5 ++ [Event.optStep]
  let tr7 := tr6 ++ [Event.accumLoss]
  (({ st.1 with params := psa.1 }, psa.2), loss, tr7)

/-- the training batch loop of one epoch: fold `trainBatch` over the
training iterator, accumulating `epoch_loss` (starting from 0). -/
def runEpoch {P O G : Type} (env : Env P O G) (clip : ℚ)
    (ti : List Batch) (st : ModelState P × ScheduledAdam O) :
    (ModelState P × ScheduledAdam O) × Loss :=
  ti.foldl (fun acc b =>
    let r := trainBatch env clip acc.1 b
    (r.1, acc.2 + r.2.1)) (st, 0)

/-- `Trainer.evaluate` (lines 118-139): set the model to eval mode, sum
the no-grad batch losses over the validation iterator, and return the
sum divided by the iterator's length. -/
def evaluate {P O G : Type} (env : Env P O G) (vi : List Batch)
    (s : TrainerState P O) : Except Err (TrainerState P O × Loss) :=
  let m := { s.model with mode := Mode.eval }
  let epochLoss : Loss := (vi.map (evalBatchLoss env m.params m.mode)).sum
  match safeDiv epochLoss vi.length with
  | .error err => .error err
  | .ok l => .ok ({ s with model := m }, l)

/-- the trainer state after one epoch's batch loop, before validation:
model set to train mode, all batches applied. -/
def postBatchState {P O G : Type} (env : Env P O G) (cfg : Params)
    (ti : List Batch) (s : TrainerState P O) : TrainerState P O :=
  let r := runEpoch env cfg.clip ti ({ s.model with mode := Mode.train }, s.optimizer)
  { s with model := r.1.1, optimizer := r.1.2 }

/-- one iteration of the epoch loop of `Trainer.train` (lines 65-113),
threading the content of the save-path file: run the batch loop, compute
the mean train loss (divides by `len(train_iter)`), validate, and if the
validation loss strictly improves on `best_valid_loss`, update it and
overwrite the save-path file with the full checkpoint record. -/
def epochStep {P O G : Type} (env : Env P O G) (cfg : Params)
    (ti vi : List Batch) (e : ℕ)
    (st : TrainerState P O × Option (SavedValue P O)) :
    Except Err (TrainerState P O × Option (SavedValue P O)) :=
  let s := st.1
  let r := runEpoch env cfg.clip ti ({ s.model with mode := Mode.train }, s.optimizer)
  match safeDiv r.2 ti.length with
  | .error err => .error err
  | .ok _trainLoss =>
    match evaluate env vi (postBatchState env cfg ti s) with
    | .error err => .error err
    | .ok (s2, v) =>
      if (v : WithTop Loss) < s2.best_valid_loss then
        let s3 := { s2 with best_valid_loss := (v : WithTop Loss) }
        .ok (s3, some (SavedValue.record
          { epoch := e, model := s3.model.params,
            optimizer := s3.optimizer.optimizer,
            best_valid_loss := s3.best_valid_loss,
            current_steps := s3.optimizer.current_steps,
            init_lr := s3.optimizer.init_lr }))
      else
        .ok (s2, st.2)

/-- the epoch loop folded over an explicit list of epoch indices. -/
def trainSteps {P O G : Type} (env : Env P O G) (cfg : Params)
    (ti vi : List Batch)
    (st : TrainerState P O × Option (SavedValue P O)) (es : List ℕ) :
    Except Err (TrainerState P O × Option (SavedValue P O)) :=
  es.foldlM (fun acc e => epochStep env cfg ti vi e acc) st

/-- `Trainer.train` (lines 60-116): run the epoch loop over
`range(self.epoch, num_epoch)`, starting from the given state and
save-path file content. -/
def train {P O G : Type} (env : Env P O G) (cfg : Params)
    (ti vi : List Batch) (s : TrainerState P O)
    (fs : Option (SavedValue P O)) :
    Except Err (TrainerState P O × Option (SavedValue P O)) :=
  trainSteps env cfg ti vi (s, fs) (trainEpochs cfg s)

/-- `model.load_state_dict(v)` with PyTorch's default strict loading:
a bare state dict replaces the parameters; a dict with the checkpoint
record keys (`epoch`, `model`, `optimizer`, ...) is rejected with an
unexpected-keys error. -/
def loadStateDict {P O : Type} (m : ModelState P) :
    SavedValue P O → Except Err (ModelState P)
  | SavedValue.stateDict p => .ok { m with params := p }
  | SavedValue.record _ => .error Err.loadUnexpectedKeys

/-- `Trainer.inference` (lines 141-161): `torch.load` the save-path file
(missing file raises), pass the loaded value whole to
`model.load_state_dict`, set eval mode, sum the no-grad batch losses over
the test iterator, divide by its length. Writes no file. -/
def inference {P O G : Type} (env : Env P O G) (testIter : List Batch)
    (saveFile : Option (SavedValue P O)) (s : TrainerState P O) :
    Except Err (TrainerState P O × Loss) :=
  match saveFile with
  | none => .error Err.fileNotFound
  | some sv =>
    match loadStateDict s.model sv with
    | .error err => .error err
    | .ok m1 =>
      let m2 := { m1 with mode := Mode.eval }
      let epochLoss : Loss := (testIter.map (evalBatchLoss env m2.params m2.mode)).sum
      match safeDiv epochLoss testIter.length with
      | .error err => .error err
      | .ok l => .ok ({ s with model := m2 }, l)

/-! Concrete instantiations used to exercise the embedding on closed inputs:
trivial parameter/optimizer/gradient carriers and a constant-loss
environment. -/

/-- a concrete environment over trivial carriers: every batch has loss 1,
gradient operations are inert, the Adam step returns its inputs. -/
def env0 : Env Unit Unit Unit :=
  { forward := fun _ _ _ _ => [[[1]]],
    criterion := fun _ _ => 1,
    backward := fun g _ _ _ => g,
    clipGrad := fun g _ => g,
    adamZero := (),
    lr := fun l _ => l,
    adamStep := fun o p _ _ => (p, o) }

/-- a concrete two-token batch. -/
def batch0 : Batch := { kor := [[1, 2]], eng := [[1, 3, 0]] }

/-- a concrete configuration: 5 epochs, clip threshold 1. -/
def cfg0 : Params := { num_epoch := 5, clip := 1 }

/-- a concrete two-epoch configuration. -/
def cfg2 : Params := { num_epoch := 2, clip := 1 }

/-- a fresh trainer state over the trivial carriers. -/
def state0 : TrainerState Unit Unit :=
  { model := ⟨(), Mode.train⟩, epoch := 0, epochVal := none,
    best_valid_loss := ⊤, optimizer := ⟨(), 0, 1⟩ }

/-- `state0` after one `evaluate` call (model switched to eval mode). -/
def state0e : TrainerState Unit Unit :=
  { model := ⟨(), Mode.eval⟩, epoch := 0, epochVal := none,
    best_valid_loss := ⊤, optimizer := ⟨(), 0, 1⟩ }

/-- the trainer state after one epoch of `env0` training from `state0`. -/
def s1w : TrainerState Unit Unit :=
  { model := ⟨(), Mode.eval⟩, epoch := 0, epochVal := none,
    best_valid_loss := ((1 : ℚ) : WithTop Loss), optimizer := ⟨(), 1, 1⟩ }

/-- the checkpoint file content written during that epoch. -/
def fs1w : Option (SavedValue Unit Unit) :=
  some (SavedValue.record
    { epoch := 0, model := (), optimizer := (),
      best_valid_loss := ((1 : ℚ) : WithTop Loss),
      current_steps := 1, init_lr := 1 })

/-- the post-batch-loop state of that epoch, after `evaluate`. -/
def s2w : TrainerState Unit Unit :=
  { model := ⟨(), Mode.eval⟩, epoch := 0, epochVal := none,
    best_valid_loss := ⊤, optimizer := ⟨(), 1, 1⟩ }

/-- the trainer state after a second epoch (no further improvement). -/
def r2w : TrainerState Unit Unit :=
  { model := ⟨(), Mode.eval⟩, epoch := 0, epochVal := none,
    best_valid_loss := ((1 : ℚ) : WithTop Loss), optimizer := ⟨(), 2, 1⟩ }

/-- a concrete checkpoint record at the save path: epoch 3, best loss 1/2. -/
def ck3 : Checkpoint ℕ ℕ :=
  { epoch := 3, model := 10, optimizer := 20,
    best_valid_loss := (((1 : ℚ) / 2 : ℚ) : WithTop Loss),
    current_steps := 7, init_lr := 2 }

/-- a concrete legacy (`modelTrain.pt`) checkpoint record: epoch 9. -/
def ckLegacy : Checkpoint ℕ ℕ :=
  { epoch := 9, model := 11, optimizer := 21,
    best_valid_loss := (((3 : ℚ) / 4 : ℚ) : WithTop Loss),
    current_steps := 13, init_lr := 3 }

/-- the state `trainerInit` produces from `ck3` at the save path and
`ckLegacy` in the legacy file. -/
def sLegacyW : TrainerState ℕ ℕ :=
  { model := ⟨11, Mode.train⟩, epoch := 9, epochVal := some 3,
    best_valid_loss := (((1 : ℚ) / 2 : ℚ) : WithTop Loss),
    optimizer := ⟨21, 13, 3⟩ }

/-! Claim theorems. -/

/-- Claim C6: for every batch processed during a training epoch, the
per-batch operations happen in this order: zero the gradients, run the
model on (source, target without its last position), flatten the outputs
and the target without its first position, compute the padding-ignoring
loss, backpropagate, clip the global gradient norm, apply one scheduled
optimizer step, accumulate the scalar loss. -/
theorem trainBatch_operation_order {P O G : Type} (env : Env P O G)
    (clip : ℚ) (st : ModelState P × ScheduledAdam O) (b : Batch) :
    (trainBatch env clip st b).2.2 =
      [Event.zeroGrad, Event.forward, Event.flatten, Event.lossCompute,
       Event.backward, Event.clip, Event.optStep, Event.accumLoss] := rfl

/-- Claim C7: when neither the save-path checkpoint nor the legacy
checkpoint exists, construction succeeds as a fresh start, with epoch
index 0 and best validation loss positive infinity. -/
theorem trainerInit_fresh_start {P O : Type} (p0 : P) (o0 : O) (lr0 : ℚ) :
    ∃ s : TrainerState P O,
      trainerInit ⟨none, none⟩ p0 o0 lr0 = .ok s ∧
      s.epoch = 0 ∧ s.best_valid_loss = ⊤ :=
  ⟨_, rfl, rfl, rfl⟩

/-- Claim C10: an empty batch iterator makes the mean-loss division
divide by zero: `evaluate` on an empty validation iterator, a `train`
epoch on an empty training iterator, and `inference` on an empty test
iterator (with a loadable state dict at the save path) all fail with the
division-by-zero error instead of returning a mean loss. -/
theorem emptyIterator_divByZero {P O G : Type} (env : Env P O G)
    (cfg : Params) (vi : List Batch) (e : ℕ) (s : TrainerState P O)
    (fs : Option (SavedValue P O)) (p : P) :
    evaluate env [] s = .error Err.divByZero ∧
    epochStep env cfg [] vi e (s, fs) = .error Err.divByZero ∧
    inference env [] (some (SavedValue.stateDict p)) s = .error Err.divByZero :=
  ⟨rfl, rfl, rfl⟩

/-- Claim C2 (failing-input evaluation): with a checkpoint record at the
save path (epoch 3, best loss 1/2) and no legacy file, construction
stores the record's epoch in the unused `epochVal` field and leaves
`epoch = 0`, so `train()` under `num_epoch = 5` runs epochs
`[0, 1, 2, 3, 4]` from scratch instead of resuming at epoch 3. -/
theorem trainerInit_does_not_restore_epoch :
    ∃ s : TrainerState ℕ ℕ,
      trainerInit ⟨some (SavedValue.record ck3), none⟩ 0 0 1 = .ok s ∧
      s.epochVal = some 3 ∧
      s.best_valid_loss = (((1 : ℚ) / 2 : ℚ) : WithTop Loss) ∧
      s.epoch = 0 ∧
      trainEpochs ⟨5, 1⟩ s = [0, 1, 2, 3, 4] :=
  ⟨_, rfl, rfl, rfl, rfl, by decide⟩

/-- Claim C3 (failing-input evaluation): one improving epoch writes a
full checkpoint record to the save path, and `inference` run against
exactly that file fails with the unexpected-keys load error, because it
passes the whole record to `load_state_dict` instead of its `model`
field. -/
theorem inference_rejects_written_checkpoint :
    epochStep env0 cfg0 [batch0] [batch0] 0 (state0, none) = .ok (s1w, fs1w) ∧
    inference env0 [batch0] fs1w state0 = .error Err.loadUnexpectedKeys :=
  ⟨by simp [epochStep, runEpoch, trainBatch, ScheduledAdam.step, evaluate,
      evalBatchLoss, safeDiv, postBatchState, env0, cfg0, batch0, state0,
      s1w, fs1w], rfl⟩

/-- shape of a successful `evaluate` call: the returned state is the
input state with the model switched to eval mode, the returned loss is
the batch-loss sum divided by the iterator length, and the iterator was
non-empty. -/
theorem evaluate_ok_shape {P O G : Type} {env : Env P O G}
    {vi : List Batch} {s s' : TrainerState P O} {l : Loss}
    (h : evaluate env vi s = .ok (s', l)) :
    s' = { s with model := { s.model with mode := Mode.eval } } ∧
    l = (vi.map (evalBatchLoss env s.model.params Mode.eval)).sum / (vi.length : ℚ) ∧
    vi.length ≠ 0 := by
  by_cases hn : vi.length = 0
  · simp [evaluate, safeDiv, hn] at h
  · simp [evaluate, safeDiv, hn] at h
    exact ⟨h.1.symm, h.2.symm, hn⟩

/-- Claim C5: `evaluate()` mutates none of the model parameters, the
optimizer state (inner Adam state, step counter, base rate), the epoch
index, or the best-validation-loss tracker: whenever the call returns,
those fields of the returned state equal those of the starting state. -/
theorem evaluate_frame {P O G : Type} (env : Env P O G) (vi : List Batch)
    (s s' : TrainerState P O) (l : Loss)
    (h : evaluate env vi s = .ok (s', l)) :
    s'.model.params = s.model.params ∧ s'.optimizer = s.optimizer ∧
    s'.epoch = s.epoch ∧ s'.best_valid_loss = s.best_valid_loss := by
  obtain ⟨hs, -, -⟩ := evaluate_ok_shape h
  subst hs
  exact ⟨rfl, rfl, rfl, rfl⟩

/-- Claim C5 witness: a concrete successful `evaluate` run with all
tracked fields preserved. -/
theorem evaluate_frame_witness :
    evaluate env0 [batch0] state0 = .ok (state0e, 1) ∧
    (state0e.model.params = state0.model.params ∧
     state0e.optimizer = state0.optimizer ∧
     state0e.epoch = state0.epoch ∧
     state0e.best_valid_loss = state0.best_valid_loss) :=
  ⟨by simp [evaluate, evalBatchLoss, safeDiv, env0, batch0, state0, state0e],
   evaluate_frame env0 [batch0] state0 state0e 1
     (by simp [evaluate, evalBatchLoss, safeDiv, env0, batch0, state0, state0e])⟩

/-- Claim C9: calling `evaluate()` twice in a row on the same state
returns the same mean validation loss both times: a successful first
call returning loss `l` is followed by a successful second call (on the
state the first call leaves behind) returning the same `l`. -/
theorem evaluate_two_runs_agree {P O G : Type} (env : Env P O G)
    (vi : List Batch) (s s' : TrainerState P O) (l : Loss)
    (h : evaluate env vi s = .ok (s', l)) :
    ∃ s'', evaluate env vi s' = .ok (s'', l) := by
  obtain ⟨hs, hl, hn⟩ := evaluate_ok_shape h
  subst hs
  refine ⟨{ s with model := { s.model with mode := Mode.eval } }, ?_⟩
  simp [evaluate, safeDiv, hn, hl]

/-- Claim C9 witness: a concrete pair of consecutive `evaluate` calls
returning the same loss. -/
theorem evaluate_two_runs_agree_witness :
    evaluate env0 [batch0] state0 = .ok (state0e, 1) ∧
    (∃ s'', evaluate env0 [batch0] state0e = .ok (s'', 1)) :=
  ⟨by simp [evaluate, evalBatchLoss, safeDiv, env0, batch0, state0, state0e],
   evaluate_two_runs_agree env0 [batch0] state0 state0e 1
     (by simp [evaluate, evalBatchLoss, safeDiv, env0, batch0, state0, state0e])⟩

/-- Claim C8: whenever the legacy file `modelTrain.pt` is present at
construction, the constructed state carries the legacy record's model
parameters, inner optimizer state, scheduler step counter and base
learning rate, and its epoch — whatever the primary save-path file
contained (so any epoch/best-loss values read from it are overwritten
where the two overlap). -/
theorem trainerInit_legacy_overwrites {P O : Type}
    (fsSave : Option (SavedValue P O)) (cl : Checkpoint P O)
    (p0 : P) (o0 : O) (lr0 : ℚ) (s : TrainerState P O)
    (h : trainerInit ⟨fsSave, some cl⟩ p0 o0 lr0 = .ok s) :
    s.model.params = cl.model ∧ s.optimizer.optimizer = cl.optimizer ∧
    s.optimizer.current_steps = cl.current_steps ∧
    s.optimizer.init_lr = cl.init_lr ∧ s.epoch = cl.epoch := by
  rcases fsSave with _ | (p | c)
  · simp [trainerInit] at h
    subst h
    exact ⟨rfl, rfl, rfl, rfl, rfl⟩
  · simp [trainerInit] at h
  · simp [trainerInit] at h
    subst h
    exact ⟨rfl, rfl, rfl, rfl, rfl⟩

/-- Claim C8 witness: constructing with both a primary record (`ck3`)
and a legacy record (`ckLegacy`) yields the legacy model, optimizer,
counters and epoch. -/
theorem trainerInit_legacy_overwrites_witness :
    trainerInit ⟨some (SavedValue.record ck3), some ckLegacy⟩ 0 0 1 = .ok sLegacyW ∧
    (sLegacyW.model.params = ckLegacy.model ∧
     sLegacyW.optimizer.optimizer = ckLegacy.optimizer ∧
     sLegacyW.optimizer.current_steps = ckLegacy.current_steps ∧
     sLegacyW.optimizer.init_lr = ckLegacy.init_lr ∧
     sLegacyW.epoch = ckLegacy.epoch) :=
  ⟨by simp [trainerInit, ck3, ckLegacy, sLegacyW],
   trainerInit_legacy_overwrites (some (SavedValue.record ck3)) ckLegacy 0 0 1
     sLegacyW (by simp [trainerInit, ck3, ckLegacy, sLegacyW])⟩

/-- Claim C1: in an epoch of `train()` that returns, with `v` the mean
validation loss the epoch computes, a checkpoint is written to the save
path exactly when `v` is strictly below the best validation loss seen so
far: on improvement the tracker becomes `v` and the save-path file
becomes the record carrying the epoch index, the model parameters, the
inner optimizer state, the updated best validation loss and the
scheduler counters (step count and base learning rate) of the resulting
state; otherwise both the tracker and the file are unchanged. -/
theorem checkpoint_write_iff {P O G : Type} (env : Env P O G) (cfg : Params)
    (ti vi : List Batch) (e : ℕ) (s : TrainerState P O)
    (fs fsO : Option (SavedValue P O)) (sO s2 : TrainerState P O) (v : Loss)
    (h : epochStep env cfg ti vi e (s, fs) = .ok (sO, fsO))
    (hv : evaluate env vi (postBatchState env cfg ti s) = .ok (s2, v)) :
    ((v : WithTop Loss) < s.best_valid_loss →
        sO.best_valid_loss = (v : WithTop Loss) ∧
        fsO = some (SavedValue.record
          { epoch := e, model := sO.model.params,
            optimizer := sO.optimizer.optimizer,
            best_valid_loss := sO.best_valid_loss,
            current_steps := sO.optimizer.current_steps,
            init_lr := sO.optimizer.init_lr })) ∧
    (¬ (v : WithTop Loss) < s.best_valid_loss →
        sO.best_valid_loss = s.best_valid_loss ∧ fsO = fs) := by
  have hbest : s2.best_valid_loss = s.best_valid_loss := by
    obtain ⟨hs2, -, -⟩ := evaluate_ok_shape hv
    subst hs2
    rfl
  simp only [epochStep] at h
  rw [hv] at h
  split at h
  · simp at h
  · split at h
    · exact absurd h (by simp)
    · rename_i s2' v' heq
      rw [Except.ok.injEq, Prod.mk.injEq] at heq
      obtain ⟨hs2', hv'⟩ := heq
      subst hs2'
      subst hv'
      split at h
      · rename_i hc
        rw [Except.ok.injEq, Prod.mk.injEq] at h
        obtain ⟨hsO, hfsO⟩ := h
        subst hsO
        subst hfsO
        refine ⟨fun _ => ⟨rfl, rfl⟩, fun hnlt => absurd ?_ hnlt⟩
        rw [← hbest]
        exact hc
      · rename_i hc
        rw [Except.ok.injEq, Prod.mk.injEq] at h
        obtain ⟨hsO, hfsO⟩ := h
        subst hsO
        subst hfsO
        rw [hbest] at hc
        exact ⟨fun hlt => absurd hlt hc, fun _ => ⟨hbest, rfl⟩⟩

/-- Claim C1 witness: a concrete improving epoch (validation loss 1
against an infinite best) updates the tracker and writes the full
record. -/
theorem checkpoint_write_iff_witness :
    epochStep env0 cfg0 [batch0] [batch0] 0 (state0, none) = .ok (s1w, fs1w) ∧
    evaluate env0 [batch0] (postBatchState env0 cfg0 [batch0] state0) = .ok (s2w, 1) ∧
    ((((1 : ℚ) : WithTop Loss) < state0.best_valid_loss →
        s1w.best_valid_loss = ((1 : ℚ) : WithTop Loss) ∧
        fs1w = some (SavedValue.record
          { epoch := 0, model := s1w.model.params,
            optimizer := s1w.optimizer.optimizer,
            best_valid_loss := s1w.best_valid_loss,
            current_steps := s1w.optimizer.current_steps,
            init_lr := s1w.optimizer.init_lr })) ∧
     (¬ ((1 : ℚ) : WithTop Loss) < state0.best_valid_loss →
        s1w.best_valid_loss = state0.best_valid_loss ∧ fs1w = none)) := by
  have hA : epochStep env0 cfg0 [batch0] [batch0] 0 (state0, none) = .ok (s1w, fs1w) := by
    simp [epochStep, runEpoch, trainBatch, ScheduledAdam.step, evaluate,
      evalBatchLoss, safeDiv, postBatchState, env0, cfg0, batch0, state0,
      s1w, fs1w]
  have hB : evaluate env0 [batch0] (postBatchState env0 cfg0 [batch0] state0) =
      .ok (s2w, 1) := by
    simp [evaluate, evalBatchLoss, safeDiv, postBatchState, runEpoch,
      trainBatch, ScheduledAdam.step, env0, cfg0, batch0, state0, s2w]
  exact ⟨hA, hB,
    checkpoint_write_iff env0 cfg0 [batch0] [batch0] 0 state0 none fs1w s1w s2w 1 hA hB⟩

/-- successful `Except` bind decomposes into two successful stages. -/
theorem exceptBind_ok {ε α β : Type _} {x : Except ε α} {f : α → Except ε β}
    {b : β} (h : x >>= f = .ok b) : ∃ a, x = .ok a ∧ f a = .ok b := by
  cases x with
  | error e => simp [Bind.bind, Except.bind] at h
  | ok a => exact ⟨a, rfl, by simpa [Bind.bind, Except.bind] using h⟩

/-- one returning epoch never increases the best-validation-loss tracker. -/
theorem epochStep_best_le {P O G : Type} {env : Env P O G} {cfg : Params}
    {ti vi : List Batch} {e : ℕ} {s : TrainerState P O}
    {fs fsO : Option (SavedValue P O)} {sO : TrainerState P O}
    (h : epochStep env cfg ti vi e (s, fs) = .ok (sO, fsO)) :
    sO.best_valid_loss ≤ s.best_valid_loss := by
  simp only [epochStep] at h
  split at h
  · simp at h
  · split at h
    · simp at h
    · rename_i s2 v heq
      have hbest : s2.best_valid_loss = s.best_valid_loss := by
        obtain ⟨hs2, -, -⟩ := evaluate_ok_shape heq
        subst hs2
        rfl
      split at h
      · rename_i hc
        rw [Except.ok.injEq, Prod.mk.injEq] at h
        obtain ⟨hsO, -⟩ := h
        subst hsO
        rw [← hbest]
        exact le_of_lt hc
      · rename_i hc
        rw [Except.ok.injEq, Prod.mk.injEq] at h
        obtain ⟨hsO, -⟩ := h
        subst hsO
        exact le_of_eq hbest

/-- a returning run of the epoch loop never increases the tracker. -/
theorem trainSteps_best_le {P O G : Type} {env : Env P O G} {cfg : Params}
    {ti vi : List Batch} :
    ∀ (es : List ℕ) (st r : TrainerState P O × Option (SavedValue P O)),
      trainSteps env cfg ti vi st es = .ok r →
      r.1.best_valid_loss ≤ st.1.best_valid_loss := by
  intro es
  induction es with
  | nil =>
    intro st r h
    simp only [trainSteps, List.foldlM_nil] at h
    rw [show (pure st : Except Err _) = .ok st from rfl, Except.ok.injEq] at h
    subst h
    exact le_refl _
  | cons e es ih =>
    intro st r h
    simp only [trainSteps, List.foldlM_cons] at h
    obtain ⟨mid, hmid, hrest⟩ := exceptBind_ok h
    have h1 : mid.1.best_valid_loss ≤ st.1.best_valid_loss := by
      obtain ⟨s, fs⟩ := st
      obtain ⟨sO, fsO⟩ := mid
      exact epochStep_best_le hmid
    exact le_trans (ih mid r hrest) h1

/-- Claim C4: throughout any returning run of `train()`, the
best-validation-loss tracker is monotonically non-increasing: splitting
the run's epoch schedule anywhere, the tracker at the later boundary is
at most its value at the earlier boundary, which is at most its starting
value; the split run is the `train()` run itself. -/
theorem train_best_valid_loss_monotone {P O G : Type} (env : Env P O G)
    (cfg : Params) (ti vi : List Batch) (s : TrainerState P O)
    (fs : Option (SavedValue P O)) (es1 es2 : List ℕ)
    (r1 r2 : TrainerState P O × Option (SavedValue P O))
    (hsplit : trainEpochs cfg s = es1 ++ es2)
    (h1 : trainSteps env cfg ti vi (s, fs) es1 = .ok r1)
    (h2 : trainSteps env cfg ti vi r1 es2 = .ok r2) :
    train env cfg ti vi s fs = .ok r2 ∧
    r2.1.best_valid_loss ≤ r1.1.best_valid_loss ∧
    r1.1.best_valid_loss ≤ s.best_valid_loss := by
  refine ⟨?_, trainSteps_best_le es2 r1 r2 h2, trainSteps_best_le es1 (s, fs) r1 h1⟩
  unfold train
  rw [hsplit]
  simp only [trainSteps, List.foldlM_append] at h1 h2 ⊢
  rw [h1]
  simpa [Bind.bind, Except.bind] using h2

/-- Claim C4 witness: a concrete two-epoch run (best goes ⊤ → 1 → 1)
with the tracker non-increasing across both boundaries. -/
theorem train_best_valid_loss_monotone_witness :
    trainEpochs cfg2 state0 = [0] ++ [1] ∧
    trainSteps env0 cfg2 [batch0] [batch0] (state0, none) [0] = .ok (s1w, fs1w) ∧
    trainSteps env0 cfg2 [batch0] [batch0] (s1w, fs1w) [1] = .ok (r2w, fs1w) ∧
    (train env0 cfg2 [batch0] [batch0] state0 none = .ok (r2w, fs1w) ∧
     (r2w, fs1w).1.best_valid_loss ≤ (s1w, fs1w).1.best_valid_loss ∧
     (s1w, fs1w).1.best_valid_loss ≤ state0.best_valid_loss) := by
  have hsplit : trainEpochs cfg2 state0 = [0] ++ [1] := by decide
  have h1 : trainSteps env0 cfg2 [batch0] [batch0] (state0, none) [0] =
      .ok (s1w, fs1w) := by
    simp [trainSteps, List.foldlM, Bind.bind, Except.bind, Pure.pure,
      Except.pure, epochStep, runEpoch, trainBatch, ScheduledAdam.step,
      evaluate, evalBatchLoss, safeDiv, postBatchState, env0, cfg2, batch0,
      state0, s1w, fs1w]
  have h2 : trainSteps env0 cfg2 [batch0] [batch0] (s1w, fs1w) [1] =
      .ok (r2w, fs1w) := by
    simp [trainSteps, List.foldlM, Bind.bind, Except.bind, Pure.pure,
      Except.pure, epochStep, runEpoch, trainBatch, ScheduledAdam.step,
      evaluate, evalBatchLoss, safeDiv, postBatchState, env0, cfg2, batch0,
      s1w, fs1w, r2w]
  exact ⟨hsplit, h1, h2,
    train_best_valid_loss_monotone env0 cfg2 [batch0] [batch0] state0 none
      [0] [1] (s1w, fs1w) (r2w, fs1w) hsplit h1 h2⟩

end TransformerTrainer
